import Mathlib

/-!
Verification of the nofx_python decision core against its specification.

The definitions below are a shallow embedding of the Python sources:
  * `decision/engine.py`   — decision data model, validation, response parsing,
                             liquidity filter, cooldown status;
  * `trader/auto_trader.py` — pre-open position guard, decision sorting;
  * `mcp/client.py`        — AI-call retry loop.
Python floats are modelled as rationals (ℚ); every claim settled here is
decided by comparisons far from any float-rounding boundary.
-/

namespace NofxSpec

/-- Embeds the `Decision` dataclass of `decision/engine.py`. -/
structure Decision where
  symbol : String := ""
  action : String := ""
  leverage : Int := 0
  position_size_usd : ℚ := 0
  stop_loss : ℚ := 0
  take_profit : ℚ := 0
  confidence : Int := 0
  risk_usd : ℚ := 0
  reasoning : String := ""
deriving DecidableEq, Repr

/-- The six action strings accepted by `_validate_decision`. -/
def validActions : List String :=
  ["open_long", "open_short", "close_long", "close_short", "hold", "wait"]

/-- The distinct rejection reasons raised by `_validate_decision`, one per
`raise` site, in source order. -/
inductive VError where
  | invalidAction (a : String)
  | badLeverage
  | sizeNonpos
  | sizeTooLarge
  | stopOrTargetNonpos
  | longStopNotBelowTarget
  | shortStopNotAboveTarget
  | ratioTooLow
deriving DecidableEq, Repr

instance {ε α : Type} [DecidableEq ε] [DecidableEq α] : DecidableEq (Except ε α) := fun x y =>
  match x, y with
  | .ok a, .ok b =>
    if h : a = b then isTrue (by rw [h]) else isFalse (by intro hh; cases hh; exact h rfl)
  | .error a, .error b =>
    if h : a = b then isTrue (by rw [h]) else isFalse (by intro hh; cases hh; exact h rfl)
  | .ok _, .error _ => isFalse (by intro hh; cases hh)
  | .error _, .ok _ => isFalse (by intro hh; cases hh)

/-- The per-symbol leverage cap picked by `_validate_decision`: the BTC/ETH cap
for `BTCUSDT`/`ETHUSDT`, the altcoin cap otherwise. -/
def maxLeverageFor (symbol : String) (btc_eth_leverage altcoin_leverage : Int) : Int :=
  if symbol = "BTCUSDT" ∨ symbol = "ETHUSDT" then btc_eth_leverage else altcoin_leverage

/-- The per-symbol position-value cap picked by `_validate_decision`:
`equity × 10` for BTC/ETH, `equity × 1.5` otherwise. -/
def maxPositionValueFor (symbol : String) (account_equity : ℚ) : ℚ :=
  if symbol = "BTCUSDT" ∨ symbol = "ETHUSDT" then account_equity * 10
  else account_equity * (3/2)

/-- Embeds `_validate_decision` of `decision/engine.py`: the if-chain of risk
checks applied to a single decision, returning the first violated rule. -/
def validateDecision (d : Decision) (account_equity : ℚ)
    (btc_eth_leverage altcoin_leverage : Int) : Except VError Unit :=
  if d.action ∉ validActions then .error (.invalidAction d.action)
  else if d.action = "open_long" ∨ d.action = "open_short" then
    let max_leverage := maxLeverageFor d.symbol btc_eth_leverage altcoin_leverage
    let max_position_value := maxPositionValueFor d.symbol account_equity
    if d.leverage ≤ 0 ∨ d.leverage > max_leverage then .error .badLeverage
    else if d.position_size_usd ≤ 0 then .error .sizeNonpos
    else if d.position_size_usd > max_position_value + max_position_value * (1/100) then
      .error .sizeTooLarge
    else if d.stop_loss ≤ 0 ∨ d.take_profit ≤ 0 then .error .stopOrTargetNonpos
    else if d.action = "open_long" ∧ d.stop_loss ≥ d.take_profit then
      .error .longStopNotBelowTarget
    else if d.action ≠ "open_long" ∧ d.stop_loss ≤ d.take_profit then
      .error .shortStopNotAboveTarget
    else
      let entry : ℚ :=
        if d.action = "open_long" then
          d.stop_loss + (d.take_profit - d.stop_loss) * (1/5)
        else
          d.stop_loss - (d.stop_loss - d.take_profit) * (1/5)
      let risk_percent : ℚ :=
        if d.action = "open_long" then (entry - d.stop_loss) / entry * 100
        else (d.stop_loss - entry) / entry * 100
      let reward_percent : ℚ :=
        if d.action = "open_long" then (d.take_profit - entry) / entry * 100
        else (entry - d.take_profit) / entry * 100
      let risk_reward_ratio : ℚ :=
        if risk_percent > 0 then reward_percent / risk_percent else 0
      if risk_reward_ratio < 3 then .error .ratioTooLow else .ok ()
  else .ok ()

/-- Embeds `_validate_decisions`: validate a batch, failing at the first bad
decision. -/
def validateDecisions (ds : List Decision) (account_equity : ℚ)
    (btc_eth_leverage altcoin_leverage : Int) : Except VError Unit :=
  match ds with
  | [] => .ok ()
  | d :: rest =>
    match validateDecision d account_equity btc_eth_leverage altcoin_leverage with
    | .ok () => validateDecisions rest account_equity btc_eth_leverage altcoin_leverage
    | .error e => .error e

/-- The end-to-end scenario decision of the spec (equity 1000, caps 10). -/
def scenarioDecision : Decision :=
  { symbol := "ETHUSDT", action := "open_long", leverage := 10,
    position_size_usd := 1400, stop_loss := 3000, take_profit := 3300,
    confidence := 80, risk_usd := 50, reasoning := "x" }

/-- The same decision with `take_profit` lowered to 3150. -/
def scenarioDecisionLowTP : Decision :=
  { scenarioDecision with take_profit := 3150 }

/-- For an `open_long` with positive stop below target, the validator's
assumed-entry arithmetic makes the reward:risk ratio identically 4. -/
lemma long_ratio_eq_four (sl tp : ℚ) (h0 : 0 < sl) (hlt : sl < tp) :
    ((tp - (sl + (tp - sl) * (1/5))) / (sl + (tp - sl) * (1/5)) * 100) /
      (((sl + (tp - sl) * (1/5)) - sl) / (sl + (tp - sl) * (1/5)) * 100) = 4 := by
  have hE : (0:ℚ) < sl + (tp - sl) * (1/5) := by linarith
  have hR : (0:ℚ) < ((sl + (tp - sl) * (1/5)) - sl) / (sl + (tp - sl) * (1/5)) * 100 := by
    apply mul_pos _ (by norm_num)
    exact div_pos (by linarith) hE
  rw [div_eq_iff (ne_of_gt hR)]
  field_simp
  ring

/-- For an `open_short` with positive target below stop, the validator's
assumed-entry arithmetic makes the reward:risk ratio identically 4. -/
lemma short_ratio_eq_four (sl tp : ℚ) (h0 : 0 < tp) (hlt : tp < sl) :
    (((sl - (sl - tp) * (1/5)) - tp) / (sl - (sl - tp) * (1/5)) * 100) /
      ((sl - (sl - (sl - tp) * (1/5))) / (sl - (sl - tp) * (1/5)) * 100) = 4 := by
  have hE : (0:ℚ) < sl - (sl - tp) * (1/5) := by linarith
  have hR : (0:ℚ) < (sl - (sl - (sl - tp) * (1/5))) / (sl - (sl - tp) * (1/5)) * 100 := by
    apply mul_pos _ (by norm_num)
    apply div_pos (by linarith) hE
  rw [div_eq_iff (ne_of_gt hR)]
  field_simp
  ring

lemma validate_exempt (d : Decision) (e : ℚ) (bl al : Int)
    (h : d.action = "close_long" ∨ d.action = "close_short" ∨
         d.action = "hold" ∨ d.action = "wait") :
    validateDecision d e bl al = .ok () := by
  rcases h with h | h | h | h <;> simp [validateDecision, validActions, h]

lemma validate_unknown (d : Decision) (e : ℚ) (bl al : Int)
    (h : d.action ∉ validActions) :
    validateDecision d e bl al = .error (.invalidAction d.action) := by
  simp [validateDecision, h]

lemma validate_open_mem (d : Decision)
    (ho : d.action = "open_long" ∨ d.action = "open_short") :
    d.action ∈ validActions := by
  rcases ho with h | h <;> simp [validActions, h]

lemma validate_open_badLeverage (d : Decision) (e : ℚ) (bl al : Int)
    (ho : d.action = "open_long" ∨ d.action = "open_short")
    (h : d.leverage ≤ 0 ∨ d.leverage > maxLeverageFor d.symbol bl al) :
    validateDecision d e bl al = .error .badLeverage := by
  simp only [validateDecision]
  rw [if_neg (not_not_intro (validate_open_mem d ho)), if_pos ho, if_pos h]

lemma validate_open_sizeNonpos (d : Decision) (e : ℚ) (bl al : Int)
    (ho : d.action = "open_long" ∨ d.action = "open_short")
    (hl : 0 < d.leverage ∧ d.leverage ≤ maxLeverageFor d.symbol bl al)
    (hs : d.position_size_usd ≤ 0) :
    validateDecision d e bl al = .error .sizeNonpos := by
  simp only [validateDecision]
  rw [if_neg (not_not_intro (validate_open_mem d ho)), if_pos ho,
    if_neg (by push_neg; exact hl), if_pos hs]

lemma validate_open_sizeTooLarge (d : Decision) (e : ℚ) (bl al : Int)
    (ho : d.action = "open_long" ∨ d.action = "open_short")
    (hl : 0 < d.leverage ∧ d.leverage ≤ maxLeverageFor d.symbol bl al)
    (hs : 0 < d.position_size_usd)
    (hbig : d.position_size_usd > maxPositionValueFor d.symbol e * (101/100)) :
    validateDecision d e bl al = .error .sizeTooLarge := by
  simp only [validateDecision]
  rw [if_neg (not_not_intro (validate_open_mem d ho)), if_pos ho,
    if_neg (by push_neg; exact hl), if_neg (by push_neg; exact hs),
    if_pos (by nlinarith [hbig])]

lemma validate_open_stopNonpos (d : Decision) (e : ℚ) (bl al : Int)
    (ho : d.action = "open_long" ∨ d.action = "open_short")
    (hl : 0 < d.leverage ∧ d.leverage ≤ maxLeverageFor d.symbol bl al)
    (hs : 0 < d.position_size_usd)
    (hfit : d.position_size_usd ≤ maxPositionValueFor d.symbol e * (101/100))
    (hz : d.stop_loss ≤ 0 ∨ d.take_profit ≤ 0) :
    validateDecision d e bl al = .error .stopOrTargetNonpos := by
  simp only [validateDecision]
  rw [if_neg (not_not_intro (validate_open_mem d ho)), if_pos ho,
    if_neg (by push_neg; exact hl), if_neg (by push_neg; exact hs),
    if_neg (by push_neg; nlinarith [hfit]), if_pos hz]

lemma validate_open_long_badDirection (d : Decision) (e : ℚ) (bl al : Int)
    (ho : d.action = "open_long")
    (hl : 0 < d.leverage ∧ d.leverage ≤ maxLeverageFor d.symbol bl al)
    (hs : 0 < d.position_size_usd)
    (hfit : d.position_size_usd ≤ maxPositionValueFor d.symbol e * (101/100))
    (hz : 0 < d.stop_loss ∧ 0 < d.take_profit)
    (hd : d.stop_loss ≥ d.take_profit) :
    validateDecision d e bl al = .error .longStopNotBelowTarget := by
  simp only [validateDecision]
  rw [if_neg (not_not_intro (validate_open_mem d (Or.inl ho))), if_pos (Or.inl ho),
    if_neg (by push_neg; exact hl), if_neg (by push_neg; exact hs),
    if_neg (by push_neg; nlinarith [hfit]), if_neg (by push_neg; exact hz),
    if_pos ⟨ho, hd⟩]

lemma validate_open_short_badDirection (d : Decision) (e : ℚ) (bl al : Int)
    (ho : d.action = "open_short")
    (hl : 0 < d.leverage ∧ d.leverage ≤ maxLeverageFor d.symbol bl al)
    (hs : 0 < d.position_size_usd)
    (hfit : d.position_size_usd ≤ maxPositionValueFor d.symbol e * (101/100))
    (hz : 0 < d.stop_loss ∧ 0 < d.take_profit)
    (hd : d.stop_loss ≤ d.take_profit) :
    validateDecision d e bl al = .error .shortStopNotAboveTarget := by
  have hne : d.action ≠ "open_long" := by rw [ho]; decide
  simp only [validateDecision]
  rw [if_neg (not_not_intro (validate_open_mem d (Or.inr ho))), if_pos (Or.inr ho),
    if_neg (by push_neg; exact hl), if_neg (by push_neg; exact hs),
    if_neg (by push_neg; nlinarith [hfit]), if_neg (by push_neg; exact hz),
    if_neg (by intro hc; exact hne hc.1), if_pos ⟨hne, hd⟩]

lemma validate_open_long_ok (d : Decision) (e : ℚ) (bl al : Int)
    (ho : d.action = "open_long")
    (hl : 0 < d.leverage ∧ d.leverage ≤ maxLeverageFor d.symbol bl al)
    (hs : 0 < d.position_size_usd)
    (hfit : d.position_size_usd ≤ maxPositionValueFor d.symbol e * (101/100))
    (hz : 0 < d.stop_loss ∧ 0 < d.take_profit)
    (hd : d.stop_loss < d.take_profit) :
    validateDecision d e bl al = .ok () := by
  have hE : (0:ℚ) < d.stop_loss + (d.take_profit - d.stop_loss) * (1/5) := by
    have := hz.1; linarith
  have hR : (0:ℚ) <
      ((d.stop_loss + (d.take_profit - d.stop_loss) * (1/5)) - d.stop_loss) /
        (d.stop_loss + (d.take_profit - d.stop_loss) * (1/5)) * 100 := by
    apply mul_pos _ (by norm_num)
    exact div_pos (by linarith) hE
  simp only [validateDecision]
  rw [if_neg (not_not_intro (validate_open_mem d (Or.inl ho))), if_pos (Or.inl ho),
    if_neg (by push_neg; exact hl), if_neg (by push_neg; exact hs),
    if_neg (by push_neg; nlinarith [hfit]), if_neg (by push_neg; exact hz),
    if_neg (by intro hc; exact absurd hd (not_lt.mpr hc.2)),
    if_neg (by intro hc; exact hc.1 ho)]
  simp only [ho, if_pos rfl, reduceIte]
  rw [if_pos hR, if_neg (by rw [long_ratio_eq_four d.stop_loss d.take_profit hz.1 hd]; norm_num)]

lemma validate_open_short_ok (d : Decision) (e : ℚ) (bl al : Int)
    (ho : d.action = "open_short")
    (hl : 0 < d.leverage ∧ d.leverage ≤ maxLeverageFor d.symbol bl al)
    (hs : 0 < d.position_size_usd)
    (hfit : d.position_size_usd ≤ maxPositionValueFor d.symbol e * (101/100))
    (hz : 0 < d.stop_loss ∧ 0 < d.take_profit)
    (hd : d.take_profit < d.stop_loss) :
    validateDecision d e bl al = .ok () := by
  have hne : d.action ≠ "open_long" := by rw [ho]; decide
  have hE : (0:ℚ) < d.stop_loss - (d.stop_loss - d.take_profit) * (1/5) := by
    have := hz.2; linarith
  have hR : (0:ℚ) <
      (d.stop_loss - (d.stop_loss - (d.stop_loss - d.take_profit) * (1/5))) /
        (d.stop_loss - (d.stop_loss - d.take_profit) * (1/5)) * 100 := by
    apply mul_pos _ (by norm_num)
    apply div_pos (by linarith) hE
  simp only [validateDecision]
  rw [if_neg (not_not_intro (validate_open_mem d (Or.inr ho))), if_pos (Or.inr ho),
    if_neg (by push_neg; exact hl), if_neg (by push_neg; exact hs),
    if_neg (by push_neg; nlinarith [hfit]), if_neg (by push_neg; exact hz),
    if_neg (by intro hc; exact hne hc.1),
    if_neg (by intro hc; exact absurd hd (not_lt.mpr hc.2))]
  have hfalse : ("open_short" = "open_long") = False := by simp
  simp only [ho, hfalse, if_false]
  rw [if_pos hR, if_neg (by rw [short_ratio_eq_four d.stop_loss d.take_profit hz.2 hd]; norm_num)]

lemma validate_open_ok_necessary (d : Decision) (e : ℚ) (bl al : Int)
    (ho : d.action = "open_long" ∨ d.action = "open_short")
    (hok : validateDecision d e bl al = .ok ()) :
    0 < d.leverage ∧ d.leverage ≤ maxLeverageFor d.symbol bl al ∧
    0 < d.position_size_usd ∧
    d.position_size_usd ≤ maxPositionValueFor d.symbol e * (101/100) ∧
    0 < d.stop_loss ∧ 0 < d.take_profit ∧
    (d.action = "open_long" → d.stop_loss < d.take_profit) ∧
    (d.action = "open_short" → d.take_profit < d.stop_loss) := by
  simp only [validateDecision] at hok
  rw [if_neg (not_not_intro (validate_open_mem d ho)), if_pos ho] at hok
  by_cases h1 : d.leverage ≤ 0 ∨ d.leverage > maxLeverageFor d.symbol bl al
  · rw [if_pos h1] at hok; exact absurd hok (by simp)
  rw [if_neg h1] at hok
  push_neg at h1
  by_cases h2 : d.position_size_usd ≤ 0
  · rw [if_pos h2] at hok; exact absurd hok (by simp)
  rw [if_neg h2] at hok
  push_neg at h2
  by_cases h3 : d.position_size_usd >
      maxPositionValueFor d.symbol e + maxPositionValueFor d.symbol e * (1/100)
  · rw [if_pos h3] at hok; exact absurd hok (by simp)
  rw [if_neg h3] at hok
  push_neg at h3
  by_cases h4 : d.stop_loss ≤ 0 ∨ d.take_profit ≤ 0
  · rw [if_pos h4] at hok; exact absurd hok (by simp)
  rw [if_neg h4] at hok
  push_neg at h4
  by_cases h5 : d.action = "open_long" ∧ d.stop_loss ≥ d.take_profit
  · rw [if_pos h5] at hok; exact absurd hok (by simp)
  rw [if_neg h5] at hok
  by_cases h6 : d.action ≠ "open_long" ∧ d.stop_loss ≤ d.take_profit
  · rw [if_pos h6] at hok; exact absurd hok (by simp)
  refine ⟨h1.1, h1.2, h2, by nlinarith [h3], h4.1, h4.2, ?_, ?_⟩
  · intro hlong
    exact not_le.mp (fun hge => h5 ⟨hlong, hge⟩)
  · intro hshort
    have hne : d.action ≠ "open_long" := by rw [hshort]; decide
    exact not_le.mp (fun hle => h6 ⟨hne, hle⟩)

/-- C1: with equity 1000 and both leverage caps 10, validating the ETHUSDT
open_long decision (stop 3000, target 3300) succeeds — but, contrary to the
claim, validating the take_profit-3150 variant also succeeds: the validator
assumes the entry at 20% of the stop→target range, which makes the computed
reward:risk ratio identically 4, so the ≥ 3.0 check cannot reject it. -/
theorem C1_scenario_both_accepted :
    validateDecisions [scenarioDecision] 1000 10 10 = .ok () ∧
    validateDecisions [scenarioDecisionLowTP] 1000 10 10 = .ok () := by
  constructor
  · norm_num [validateDecisions, validateDecision, scenarioDecision, validActions,
      maxLeverageFor, maxPositionValueFor]
  · norm_num [validateDecisions, validateDecision, scenarioDecision, scenarioDecisionLowTP,
      validActions, maxLeverageFor, maxPositionValueFor]

/-- C3: validation applies the risk rules only to open_long/open_short
decisions (the four other known actions always pass), rejects unknown action
names, and for open decisions fails with the first violated rule: leverage in
(0, cap] with the BTC/ETH cap for BTCUSDT/ETHUSDT and the altcoin cap
otherwise; position size in (0, max_position_value × 1.01] with
max_position_value = equity × 10 for BTC/ETH and equity × 1.5 otherwise;
stop_loss and take_profit positive; stop below target for open_long and above
it for open_short; acceptance holds exactly when all the rules hold. -/
theorem C3_validation_rules :
    (∀ (d : Decision) (e : ℚ) (bl al : Int),
        (d.action = "close_long" ∨ d.action = "close_short" ∨
         d.action = "hold" ∨ d.action = "wait") →
        validateDecision d e bl al = .ok ()) ∧
    (∀ (d : Decision) (e : ℚ) (bl al : Int), d.action ∉ validActions →
        validateDecision d e bl al = .error (.invalidAction d.action)) ∧
    (∀ (d : Decision) (e : ℚ) (bl al : Int),
        (d.action = "open_long" ∨ d.action = "open_short") →
        ((d.leverage ≤ 0 ∨ d.leverage > maxLeverageFor d.symbol bl al) →
            validateDecision d e bl al = .error .badLeverage) ∧
        (0 < d.leverage ∧ d.leverage ≤ maxLeverageFor d.symbol bl al →
          d.position_size_usd ≤ 0 →
            validateDecision d e bl al = .error .sizeNonpos) ∧
        (0 < d.leverage ∧ d.leverage ≤ maxLeverageFor d.symbol bl al →
          0 < d.position_size_usd →
          d.position_size_usd > maxPositionValueFor d.symbol e * (101/100) →
            validateDecision d e bl al = .error .sizeTooLarge) ∧
        (0 < d.leverage ∧ d.leverage ≤ maxLeverageFor d.symbol bl al →
          0 < d.position_size_usd →
          d.position_size_usd ≤ maxPositionValueFor d.symbol e * (101/100) →
          (d.stop_loss ≤ 0 ∨ d.take_profit ≤ 0) →
            validateDecision d e bl al = .error .stopOrTargetNonpos) ∧
        (validateDecision d e bl al = .ok () ↔
          0 < d.leverage ∧ d.leverage ≤ maxLeverageFor d.symbol bl al ∧
          0 < d.position_size_usd ∧
          d.position_size_usd ≤ maxPositionValueFor d.symbol e * (101/100) ∧
          0 < d.stop_loss ∧ 0 < d.take_profit ∧
          (d.action = "open_long" → d.stop_loss < d.take_profit) ∧
          (d.action = "open_short" → d.take_profit < d.stop_loss))) ∧
    (∀ (d : Decision) (e : ℚ) (bl al : Int),
        d.action = "open_long" →
        0 < d.leverage ∧ d.leverage ≤ maxLeverageFor d.symbol bl al →
        0 < d.position_size_usd →
        d.position_size_usd ≤ maxPositionValueFor d.symbol e * (101/100) →
        0 < d.stop_loss ∧ 0 < d.take_profit →
        d.stop_loss ≥ d.take_profit →
        validateDecision d e bl al = .error .longStopNotBelowTarget) ∧
    (∀ (d : Decision) (e : ℚ) (bl al : Int),
        d.action = "open_short" →
        0 < d.leverage ∧ d.leverage ≤ maxLeverageFor d.symbol bl al →
        0 < d.position_size_usd →
        d.position_size_usd ≤ maxPositionValueFor d.symbol e * (101/100) →
        0 < d.stop_loss ∧ 0 < d.take_profit →
        d.stop_loss ≤ d.take_profit →
        validateDecision d e bl al = .error .shortStopNotAboveTarget) := by
  refine ⟨validate_exempt, validate_unknown, ?_, ?_, ?_⟩
  · intro d e bl al ho
    refine ⟨validate_open_badLeverage d e bl al ho,
      validate_open_sizeNonpos d e bl al ho,
      validate_open_sizeTooLarge d e bl al ho,
      validate_open_stopNonpos d e bl al ho, ?_⟩
    constructor
    · exact validate_open_ok_necessary d e bl al ho
    · rintro ⟨hl1, hl2, hs, hfit, hsl, htp, hlong, hshort⟩
      rcases ho with h | h
      · exact validate_open_long_ok d e bl al h ⟨hl1, hl2⟩ hs hfit ⟨hsl, htp⟩ (hlong h)
      · exact validate_open_short_ok d e bl al h ⟨hl1, hl2⟩ hs hfit ⟨hsl, htp⟩ (hshort h)
  · intro d e bl al ho hl hs hfit hz hd
    exact validate_open_long_badDirection d e bl al ho hl hs hfit hz hd
  · intro d e bl al ho hl hs hfit hz hd
    exact validate_open_short_badDirection d e bl al ho hl hs hfit hz hd

/-- Witness for C3: a bare `hold` decision passes, and an altcoin open_long
with leverage 20 against cap 10 is rejected with the leverage error. -/
theorem C3_validation_rules_witness :
    validateDecision { action := "hold" } 1000 10 10 = .ok () ∧
    validateDecision { symbol := "ABCUSDT", action := "open_long", leverage := 20
                       , position_size_usd := 100, stop_loss := 10, take_profit := 40 }
      1000 10 10 = .error .badLeverage := by
  constructor
  · exact C3_validation_rules.1 _ 1000 10 10 (Or.inr (Or.inr (Or.inl rfl)))
  · exact (C3_validation_rules.2.2.1 _ 1000 10 10 (Or.inl rfl)).1
      (Or.inr (by norm_num [maxLeverageFor]))

/-! ## Decision scheduling (`AutoTrader._sort_decisions_by_priority`) -/

/-- Embeds `get_action_priority` of `auto_trader.py`: closes first, opens
second, hold/wait third, unknown actions last (999). -/
def getActionPriority (action : String) : Nat :=
  if action = "close_long" then 1
  else if action = "close_short" then 1
  else if action = "open_long" then 2
  else if action = "open_short" then 2
  else if action = "hold" then 3
  else if action = "wait" then 3
  else 999

/-- Stable insertion of a decision in front of the first element of strictly
larger-or-equal priority drawn from later input positions. -/
def insertByPriority (d : Decision) : List Decision → List Decision
  | [] => [d]
  | y :: ys =>
    if getActionPriority y.action < getActionPriority d.action then
      y :: insertByPriority d ys
    else d :: y :: ys

/-- Embeds `_sort_decisions_by_priority`: Python's `sorted` with the priority
key is the unique stable sort by that key, realised here as stable insertion
sort (an element is inserted before every later-input element of equal key). -/
def sortDecisionsByPriority : List Decision → List Decision
  | [] => []
  | d :: ds => insertByPriority d (sortDecisionsByPriority ds)

lemma insertByPriority_filter_eq (d : Decision) (l : List Decision) (p : Nat)
    (hp : getActionPriority d.action = p) :
    (insertByPriority d l).filter (fun x => getActionPriority x.action = p) =
      d :: l.filter (fun x => getActionPriority x.action = p) := by
  induction l with
  | nil => simp [insertByPriority, hp]
  | cons y ys ih =>
    by_cases h : getActionPriority y.action < getActionPriority d.action
    · have hy : ¬ (getActionPriority y.action = p) := by omega
      rw [insertByPriority, if_pos h]
      simp only [List.filter_cons]
      simp [hy, ih]
    · rw [insertByPriority, if_neg h]
      simp only [List.filter_cons]
      simp [hp]

lemma insertByPriority_filter_ne (d : Decision) (l : List Decision) (p : Nat)
    (hp : getActionPriority d.action ≠ p) :
    (insertByPriority d l).filter (fun x => getActionPriority x.action = p) =
      l.filter (fun x => getActionPriority x.action = p) := by
  induction l with
  | nil => simp [insertByPriority, hp]
  | cons y ys ih =>
    by_cases h : getActionPriority y.action < getActionPriority d.action
    · rw [insertByPriority, if_pos h]
      simp [List.filter_cons, ih]
    · rw [insertByPriority, if_neg h]
      simp [List.filter_cons, hp]

lemma sortDecisionsByPriority_filter (l : List Decision) (p : Nat) :
    (sortDecisionsByPriority l).filter (fun x => getActionPriority x.action = p) =
      l.filter (fun x => getActionPriority x.action = p) := by
  induction l with
  | nil => rfl
  | cons d ds ih =>
    by_cases hd : getActionPriority d.action = p
    · rw [sortDecisionsByPriority, insertByPriority_filter_eq d _ p hd, ih]
      simp [hd]
    · rw [sortDecisionsByPriority, insertByPriority_filter_ne d _ p hd, ih]
      simp [hd]

lemma mem_insertByPriority {z d : Decision} {l : List Decision} :
    z ∈ insertByPriority d l ↔ z = d ∨ z ∈ l := by
  induction l with
  | nil => simp [insertByPriority]
  | cons y ys ih =>
    by_cases h : getActionPriority y.action < getActionPriority d.action
    · rw [insertByPriority, if_pos h]
      simp only [List.mem_cons, ih]
      tauto
    · rw [insertByPriority, if_neg h]
      simp only [List.mem_cons]

lemma insertByPriority_pairwise (d : Decision) (l : List Decision)
    (hl : l.Pairwise (fun a b => getActionPriority a.action ≤ getActionPriority b.action)) :
    (insertByPriority d l).Pairwise
      (fun a b => getActionPriority a.action ≤ getActionPriority b.action) := by
  induction l with
  | nil => simp [insertByPriority]
  | cons y ys ih =>
    rcases List.pairwise_cons.mp hl with ⟨hy, hys⟩
    by_cases h : getActionPriority y.action < getActionPriority d.action
    · rw [insertByPriority, if_pos h]
      refine List.pairwise_cons.mpr ⟨?_, ih hys⟩
      intro z hz
      rcases mem_insertByPriority.mp hz with hz | hz
      · exact hz ▸ le_of_lt h
      · exact hy z hz
    · rw [insertByPriority, if_neg h]
      refine List.pairwise_cons.mpr ⟨?_, hl⟩
      intro z hz
      rcases List.mem_cons.mp hz with hz | hz
      · exact hz ▸ le_of_not_lt h
      · exact le_trans (le_of_not_lt h) (hy z hz)

lemma sortDecisionsByPriority_pairwise (l : List Decision) :
    (sortDecisionsByPriority l).Pairwise
      (fun a b => getActionPriority a.action ≤ getActionPriority b.action) := by
  induction l with
  | nil => simp [sortDecisionsByPriority]
  | cons d ds ih => exact insertByPriority_pairwise d _ ih

lemma insertByPriority_front (d : Decision) (ds : List Decision)
    (h : ∀ z ∈ ds, getActionPriority d.action ≤ getActionPriority z.action) :
    insertByPriority d ds = d :: ds := by
  cases ds with
  | nil => rfl
  | cons y ys =>
    rw [insertByPriority, if_neg (not_lt.mpr (h y (List.mem_cons_self y ys)))]

lemma sortDecisionsByPriority_fixed (l : List Decision)
    (hl : l.Pairwise (fun a b => getActionPriority a.action ≤ getActionPriority b.action)) :
    sortDecisionsByPriority l = l := by
  induction l with
  | nil => rfl
  | cons d ds ih =>
    rcases List.pairwise_cons.mp hl with ⟨hd, hds⟩
    rw [sortDecisionsByPriority, ih hds, insertByPriority_front d ds hd]

/-- Example decisions of the spec's execution-ordering scenario. -/
def exOpenBTC : Decision := { symbol := "BTCUSDT", action := "open_long" }

def exCloseETH : Decision := { symbol := "ETHUSDT", action := "close_short" }

def exHoldSOL : Decision := { symbol := "SOLUSDT", action := "hold" }

/-- C6: decision sorting is by the action priority map (closes 1, opens 2,
hold/wait 3, unknown 999 hence last); the output is sorted by priority, the
sort is stable (each priority class keeps its input order) and idempotent, and
the spec's example `[open_long BTC, close_short ETH, hold SOL]` sorts to
`[close_short ETH, open_long BTC, hold SOL]`. -/
theorem C6_sort_priority_stable_idempotent :
    (getActionPriority "close_long" = 1 ∧ getActionPriority "close_short" = 1 ∧
     getActionPriority "open_long" = 2 ∧ getActionPriority "open_short" = 2 ∧
     getActionPriority "hold" = 3 ∧ getActionPriority "wait" = 3 ∧
     (∀ a, a ∉ validActions → getActionPriority a = 999)) ∧
    (∀ l : List Decision, (sortDecisionsByPriority l).Pairwise
        (fun a b => getActionPriority a.action ≤ getActionPriority b.action)) ∧
    (∀ (l : List Decision) (p : Nat),
        (sortDecisionsByPriority l).filter (fun x => getActionPriority x.action = p) =
          l.filter (fun x => getActionPriority x.action = p)) ∧
    (∀ l : List Decision,
        sortDecisionsByPriority (sortDecisionsByPriority l) = sortDecisionsByPriority l) ∧
    sortDecisionsByPriority [exOpenBTC, exCloseETH, exHoldSOL] =
      [exCloseETH, exOpenBTC, exHoldSOL] := by
  refine ⟨⟨rfl, rfl, rfl, rfl, rfl, rfl, ?_⟩, sortDecisionsByPriority_pairwise,
    sortDecisionsByPriority_filter, ?_, ?_⟩
  · intro a ha
    have h1 : a ≠ "close_long" := fun h => ha (by simp [validActions, h])
    have h2 : a ≠ "close_short" := fun h => ha (by simp [validActions, h])
    have h3 : a ≠ "open_long" := fun h => ha (by simp [validActions, h])
    have h4 : a ≠ "open_short" := fun h => ha (by simp [validActions, h])
    have h5 : a ≠ "hold" := fun h => ha (by simp [validActions, h])
    have h6 : a ≠ "wait" := fun h => ha (by simp [validActions, h])
    simp [getActionPriority, h1, h2, h3, h4, h5, h6]
  · intro l
    exact sortDecisionsByPriority_fixed _ (sortDecisionsByPriority_pairwise l)
  · decide

/-- Witness for C6: an unrecognised action string gets priority 999. -/
theorem C6_sort_priority_stable_idempotent_witness :
    getActionPriority "liquidate" = 999 := by
  exact C6_sort_priority_stable_idempotent.1.2.2.2.2.2.2 "liquidate" (by decide)

/-! ## Cooldown status (`_build_user_prompt`, engine.py) -/

/-- Embeds the cooldown-status computation of `_build_user_prompt`: each input
is the elapsed minutes since the corresponding timestamp, `none` when the
context field is the empty string (the `if ctx.last_*_time` guards).  The
source only ever sets the status to "cooling", never back. -/
def cooldownStatus (enterMinutes stopMinutes tpMinutes : Option ℚ) : String :=
  let s0 := "ok"
  let s1 := match enterMinutes with
    | some m => if m < 9 then "cooling" else s0
    | none => s0
  let s2 := match stopMinutes with
    | some m => if m < 6 then "cooling" else s1
    | none => s1
  let s3 := match tpMinutes with
    | some m => if m < 3 then "cooling" else s2
    | none => s2
  s3

/-- C8: the emitted cooldown_status is "cooling" exactly when a set timestamp
is within its window — entry < 9 minutes, stop < 6 minutes, take-profit < 3
minutes — and "ok" otherwise; with only last_enter_time set, 8 minutes ago
gives "cooling" and 10 minutes ago gives "ok". -/
theorem C8_cooldown_status :
    (∀ e s t : Option ℚ,
        (cooldownStatus e s t = "cooling" ↔
          (∃ m, e = some m ∧ m < 9) ∨ (∃ m, s = some m ∧ m < 6) ∨
          (∃ m, t = some m ∧ m < 3))) ∧
    (∀ e s t : Option ℚ,
        cooldownStatus e s t = "cooling" ∨ cooldownStatus e s t = "ok") ∧
    cooldownStatus (some 8) none none = "cooling" ∧
    cooldownStatus (some 10) none none = "ok" := by
  refine ⟨?_, ?_, by norm_num [cooldownStatus], by norm_num [cooldownStatus]⟩
  · intro e s t
    rcases e with _ | me <;> rcases s with _ | ms <;> rcases t with _ | mt <;>
      simp only [cooldownStatus] <;> first
      | (split_ifs <;> simp_all)
      | simp_all
  · intro e s t
    rcases e with _ | me <;> rcases s with _ | ms <;> rcases t with _ | mt <;>
      simp only [cooldownStatus] <;> first
      | (split_ifs <;> simp_all)
      | simp_all

/-! ## Liquidity filter (`_fetch_market_data_for_context`, engine.py) -/

/-- Embeds the `OIData` dataclass of `market/data.py`. -/
structure OIData where
  latest : ℚ := 0
  average : ℚ := 0
deriving DecidableEq, Repr

/-- The part of the `MarketData` dataclass the liquidity filter reads. -/
structure MarketData where
  current_price : ℚ := 0
  open_interest : Option OIData := none
deriving DecidableEq, Repr

/-- Embeds the per-symbol keep/skip test of `_fetch_market_data_for_context`:
non-position symbols with open-interest data and a positive price are skipped
when open interest × price is below 15 million USD; everything else is kept. -/
def keepSymbolInContext (positionSymbols : List String) (symbol : String)
    (data : MarketData) : Bool :=
  if symbol ∉ positionSymbols ∧ data.open_interest.isSome ∧ 0 < data.current_price then
    match data.open_interest with
    | some oi => decide (¬ (oi.latest * data.current_price / 1000000 < 15))
    | none => true
  else true

/-- Embeds the loop of `_fetch_market_data_for_context` over the fetched
snapshots: the market-data map retains exactly the symbols that pass
`keepSymbolInContext`. -/
def fetchMarketDataMap (positionSymbols : List String)
    (snapshots : List (String × MarketData)) : List (String × MarketData) :=
  snapshots.filter (fun p => keepSymbolInContext positionSymbols p.1 p.2)

/-- C7: a candidate (non-position) symbol with open-interest data and a
positive price is dropped from the market-data map exactly when its
open-interest value in USD is below 15,000,000; a symbol that is an existing
position is always kept; 14.99M USD is excluded, 15.00M USD is included, and
a position at 1M USD is included. -/
theorem C7_liquidity_filter :
    (∀ (ps : List String) (s : String) (data : MarketData) (oi : OIData),
        s ∉ ps → data.open_interest = some oi → 0 < data.current_price →
        (keepSymbolInContext ps s data = false ↔
          oi.latest * data.current_price < 15000000)) ∧
    (∀ (ps : List String) (s : String) (data : MarketData),
        s ∈ ps → keepSymbolInContext ps s data = true) ∧
    (∀ (ps : List String) (snapshots : List (String × MarketData))
        (s : String) (data : MarketData),
        (s, data) ∈ fetchMarketDataMap ps snapshots ↔
          (s, data) ∈ snapshots ∧ keepSymbolInContext ps s data = true) ∧
    keepSymbolInContext [] "XUSDT"
      { current_price := 1, open_interest := some { latest := 14990000 } } = false ∧
    keepSymbolInContext [] "XUSDT"
      { current_price := 1, open_interest := some { latest := 15000000 } } = true ∧
    keepSymbolInContext ["XUSDT"] "XUSDT"
      { current_price := 1, open_interest := some { latest := 1000000 } } = true := by
  refine ⟨?_, ?_, ?_, by norm_num [keepSymbolInContext],
    by norm_num [keepSymbolInContext], by norm_num [keepSymbolInContext]⟩
  · intro ps s data oi hmem hoi hpos
    rw [keepSymbolInContext, if_pos ⟨hmem, by rw [hoi]; rfl, hpos⟩, hoi]
    simp only [decide_eq_false_iff_not, not_not]
    rw [div_lt_iff₀ (by norm_num : (0:ℚ) < 1000000)]
    norm_num
  · intro ps s data hmem
    rw [keepSymbolInContext, if_neg (by intro hc; exact hc.1 hmem)]
  · intro ps snapshots s data
    simp [fetchMarketDataMap, List.mem_filter]

/-- Witness for C7: a 14.99M-USD candidate evaluates to excluded through the
general filter characterisation. -/
theorem C7_liquidity_filter_witness :
    keepSymbolInContext [] "XUSDT"
      { current_price := 1, open_interest := some { latest := 14990000 } } = false := by
  exact (C7_liquidity_filter.1 [] "XUSDT"
      { current_price := 1, open_interest := some { latest := 14990000 } }
      { latest := 14990000 }
      (by simp) rfl (by norm_num)).mpr (by norm_num)

/-! ## Pre-open position guard (`auto_trader.py`) -/

/-- A position as returned by `Trader.get_positions` (the fields the pre-open
guard reads). -/
structure PositionEntry where
  symbol : String
  side : String
deriving DecidableEq, Repr

/-- The order a successful open places (symbol, side, and the quantity
`position_size_usd / current_price` computed by the execution path). -/
structure PlacedOrder where
  symbol : String
  side : String
  quantity : ℚ
deriving DecidableEq, Repr

/-- Embeds `AutoTrader._execute_open_long_with_record`, abstracted over the
exchange: positions are the list re-queried from the trader just before
opening; if one matches the decision's symbol with side "long" the method
raises (no order is placed), otherwise the market order is placed. -/
def executeOpenLongWithRecord (positions : List PositionEntry) (d : Decision)
    (current_price : ℚ) : Except String PlacedOrder :=
  if positions.any (fun p => p.symbol == d.symbol && p.side == "long") then
    .error ("❌ " ++ d.symbol ++
      " 已有多仓，拒绝开仓以防止仓位叠加超限。如需换仓，请先给出 close_long 决策")
  else
    .ok { symbol := d.symbol, side := "long",
          quantity := d.position_size_usd / current_price }

/-- Embeds `AutoTrader._execute_open_short_with_record`, same shape with side
"short". -/
def executeOpenShortWithRecord (positions : List PositionEntry) (d : Decision)
    (current_price : ℚ) : Except String PlacedOrder :=
  if positions.any (fun p => p.symbol == d.symbol && p.side == "short") then
    .error ("❌ " ++ d.symbol ++
      " 已有空仓，拒绝开仓以防止仓位叠加超限。如需换仓，请先给出 close_short 决策")
  else
    .ok { symbol := d.symbol, side := "short",
          quantity := d.position_size_usd / current_price }

/-- C2: if the freshly re-queried position list contains a position with the
decision's symbol and the same side, the open raises the close-first error and
no order is placed; the error text names the corresponding close action. -/
theorem C2_preopen_guard :
    (∀ (positions : List PositionEntry) (d : Decision) (price : ℚ),
        (∃ p ∈ positions, p.symbol = d.symbol ∧ p.side = "long") →
        executeOpenLongWithRecord positions d price =
          .error ("❌ " ++ d.symbol ++
            " 已有多仓，拒绝开仓以防止仓位叠加超限。如需换仓，请先给出 close_long 决策") ∧
        ∀ o : PlacedOrder, executeOpenLongWithRecord positions d price ≠ .ok o) ∧
    (∀ (positions : List PositionEntry) (d : Decision) (price : ℚ),
        (∃ p ∈ positions, p.symbol = d.symbol ∧ p.side = "short") →
        executeOpenShortWithRecord positions d price =
          .error ("❌ " ++ d.symbol ++
            " 已有空仓，拒绝开仓以防止仓位叠加超限。如需换仓，请先给出 close_short 决策") ∧
        ∀ o : PlacedOrder, executeOpenShortWithRecord positions d price ≠ .ok o) := by
  constructor
  · intro positions d price hex
    have hany : positions.any (fun p => p.symbol == d.symbol && p.side == "long") = true := by
      simp only [List.any_eq_true, Bool.and_eq_true, beq_iff_eq]
      rcases hex with ⟨p, hp, h1, h2⟩
      exact ⟨p, hp, h1, h2⟩
    rw [executeOpenLongWithRecord, if_pos hany]
    exact ⟨rfl, fun o h => by cases h⟩
  · intro positions d price hex
    have hany : positions.any (fun p => p.symbol == d.symbol && p.side == "short") = true := by
      simp only [List.any_eq_true, Bool.and_eq_true, beq_iff_eq]
      rcases hex with ⟨p, hp, h1, h2⟩
      exact ⟨p, hp, h1, h2⟩
    rw [executeOpenShortWithRecord, if_pos hany]
    exact ⟨rfl, fun o h => by cases h⟩

/-- Witness for C2: with an existing BTCUSDT long, an open_long on BTCUSDT is
rejected with the close-first error. -/
theorem C2_preopen_guard_witness :
    executeOpenLongWithRecord [{ symbol := "BTCUSDT", side := "long" }]
      { symbol := "BTCUSDT", action := "open_long" } 1 =
      .error ("❌ BTCUSDT 已有多仓，拒绝开仓以防止仓位叠加超限。如需换仓，请先给出 close_long 决策") := by
  have h := (C2_preopen_guard.1 [{ symbol := "BTCUSDT", side := "long" }]
    { symbol := "BTCUSDT", action := "open_long" } 1
    ⟨{ symbol := "BTCUSDT", side := "long" }, by simp, rfl, rfl⟩).1
  simpa using h

/-! ## AI client retry loop (`mcp/client.py`) -/

/-- The transient-failure signatures of `_is_retryable_error`. -/
def retryableSignatures : List String :=
  ["EOF", "timeout", "connection reset", "connection refused",
   "temporary failure", "no such host"]

/-- Character-list version of Python's `str.startswith`, the base step of the
substring test below. -/
def startsWithSeq : List Char → List Char → Bool
  | [], _ => true
  | _ :: _, [] => false
  | a :: as, b :: bs => a == b && startsWithSeq as bs

/-- Character-list version of Python's `needle in haystack` substring test. -/
def containsSeq (needle : List Char) : List Char → Bool
  | [] => startsWithSeq needle []
  | c :: cs => if startsWithSeq needle (c :: cs) then true else containsSeq needle cs

/-- Embeds `_is_retryable_error`: the error text is retryable when it contains
one of the curated transient signatures as a substring. -/
def isRetryableError (err : String) : Bool :=
  retryableSignatures.any (fun t => containsSeq t.toList err.toList)

lemma startsWithSeq_iff (n h : List Char) : startsWithSeq n h = true ↔ n <+: h := by
  induction n generalizing h with
  | nil => simp [startsWithSeq]
  | cons a as ih =>
    cases h with
    | nil => simp [startsWithSeq]
    | cons b bs => simp [startsWithSeq, List.cons_prefix_cons, ih]

lemma containsSeq_iff (n h : List Char) : containsSeq n h = true ↔ n <:+: h := by
  induction h with
  | nil => simp [containsSeq, startsWithSeq_iff]
  | cons c cs ih =>
    rw [containsSeq]
    split_ifs with hs
    · simp only [true_iff]
      exact ((startsWithSeq_iff _ _).mp hs).isInfix
    · rw [ih, List.infix_cons_iff]
      constructor
      · exact Or.inr
      · rintro (hp | hi)
        · exact absurd ((startsWithSeq_iff _ _).mpr hp) (by simp [hs])
        · exact hi

/-- Embeds the retry loop of `call_with_messages`: `call a` is the outcome of
`_call_once` on attempt `a`; `remaining` counts the loop iterations left of
`max_retries = 3`; the result pairs the final outcome with the list of
back-off sleeps performed, in seconds (`attempt * 2`, slept only while a
further attempt remains). -/
def retryRun (call : Nat → Except String String) :
    Nat → Nat → List Nat → String → Except String String × List Nat
  | 0, _, waits, lastErr => (.error ("重试3次后仍然失败: " ++ lastErr), waits)
  | remaining + 1, attempt, waits, _lastErr =>
    match call attempt with
    | .ok s => (.ok s, waits)
    | .error e =>
      if isRetryableError e = false then (.error e, waits)
      else if 0 < remaining then
        retryRun call remaining (attempt + 1) (waits ++ [attempt * 2]) e
      else retryRun call remaining (attempt + 1) waits e

/-- Embeds `call_with_messages` (the retry wrapper): three attempts starting
at attempt 1 with no sleeps yet. -/
def callWithMessages (call : Nat → Except String String) :
    Except String String × List Nat :=
  retryRun call 3 1 [] ""

lemma retryRun_congr (c c' : Nat → Except String String) (remaining attempt : Nat)
    (waits : List Nat) (lastErr : String)
    (h : ∀ a, attempt ≤ a → a < attempt + remaining → c a = c' a) :
    retryRun c remaining attempt waits lastErr =
      retryRun c' remaining attempt waits lastErr := by
  induction remaining generalizing attempt waits lastErr with
  | zero => rfl
  | succ n ih =>
    rw [retryRun, retryRun, h attempt (le_refl _) (by omega)]
    cases c' attempt with
    | ok s => rfl
    | error e =>
      simp only
      split_ifs
      · rfl
      · exact ih (attempt + 1) _ e (fun a ha1 ha2 => h a (by omega) (by omega))
      · exact ih (attempt + 1) _ e (fun a ha1 ha2 => h a (by omega) (by omega))

/-- C9: the AI client makes at most 3 call attempts (the outcome depends only
on attempts 1–3); an error containing none of the transient signatures (EOF,
timeout, connection reset, connection refused, temporary failure, no such
host — as substrings) propagates immediately with no sleep; a retryable
failure is followed by a sleep of `attempt × 2` seconds (attempt counted from
1, so sleeps 2 then 4); and after three retryable failures the client fails
reporting that all retries failed. -/
theorem C9_ai_retry :
    (∀ c c' : Nat → Except String String,
        (∀ a, 1 ≤ a → a ≤ 3 → c a = c' a) →
        callWithMessages c = callWithMessages c') ∧
    (∀ e : String, isRetryableError e = true ↔
        ∃ t ∈ retryableSignatures, t.toList <:+: e.toList) ∧
    (∀ (c : Nat → Except String String) (s : String),
        c 1 = .ok s → callWithMessages c = (.ok s, [])) ∧
    (∀ (c : Nat → Except String String) (e : String),
        c 1 = .error e → isRetryableError e = false →
        callWithMessages c = (.error e, [])) ∧
    (∀ (c : Nat → Except String String) (e s : String),
        c 1 = .error e → isRetryableError e = true → c 2 = .ok s →
        callWithMessages c = (.ok s, [2])) ∧
    (∀ (c : Nat → Except String String) (e1 e2 e3 : String),
        c 1 = .error e1 → c 2 = .error e2 → c 3 = .error e3 →
        isRetryableError e1 = true → isRetryableError e2 = true →
        isRetryableError e3 = true →
        callWithMessages c = (.error ("重试3次后仍然失败: " ++ e3), [2, 4])) := by
  refine ⟨?_, ?_, ?_, ?_, ?_, ?_⟩
  · intro c c' h
    exact retryRun_congr c c' 3 1 [] "" (fun a h1 h2 => h a h1 (by omega))
  · intro e
    simp [isRetryableError, List.any_eq_true, containsSeq_iff]
  · intro c s h1
    simp [callWithMessages, retryRun, h1]
  · intro c e h1 r1
    simp [callWithMessages, retryRun, h1, r1]
  · intro c e s h1 r1 h2
    simp [callWithMessages, retryRun, h1, r1, h2]
  · intro c e1 e2 e3 h1 h2 h3 r1 r2 r3
    simp [callWithMessages, retryRun, h1, h2, h3, r1, r2, r3]

/-- Witness for C9: a client that always times out exhausts its 3 attempts,
sleeping 2 then 4 seconds, and reports that all retries failed. -/
theorem C9_ai_retry_witness :
    callWithMessages (fun _ => .error "timeout") =
      (.error ("重试3次后仍然失败: timeout"), [2, 4]) := by
  exact C9_ai_retry.2.2.2.2.2 (fun _ => .error "timeout") "timeout" "timeout" "timeout"
    rfl rfl rfl (by decide) (by decide) (by decide)

/-! ## AI-response parsing (`_extract_cot_trace`, `_extract_decisions`,
`_find_matching_bracket`, `_fix_missing_quotes` of engine.py, plus a model of
Python's `json.loads` restricted to the JSON grammar) -/

/-- The whitespace set of Python's `str.strip()`. -/
def isPySpace (c : Char) : Bool :=
  c == ' ' || c == '\t' || c == '\n' || c == '\r' || c == Char.ofNat 11 || c == Char.ofNat 12

/-- Python `str.strip()` on a character list. -/
def pyStripList (cs : List Char) : List Char :=
  ((cs.dropWhile isPySpace).reverse.dropWhile isPySpace).reverse

/-- Python `str.strip()`. -/
def pyStrip (s : String) : String := String.mk (pyStripList s.data)

/-- Python `str.find` for a single character: first index, or -1. -/
def pyFind (cs : List Char) (c : Char) : Int :=
  match cs.findIdx? (· == c) with
  | some i => (i : Int)
  | none => -1

/-- Embeds `_extract_cot_trace`: the text before the first `[` (stripped) when
that `[` sits at a positive index, else the whole response stripped — note the
source's `if json_start > 0`, which sends a response *starting* with `[` to
the whole-response branch. -/
def extractCotTrace (response : String) : String :=
  let json_start := pyFind response.data '['
  if json_start > 0 then pyStrip (String.mk (response.data.take json_start.toNat))
  else pyStrip response

/-- The scanning loop of `_find_matching_bracket`: raw depth counting over
every character (brackets inside string literals are counted too, as in the
source). -/
def bracketLoop : List Char → Nat → Int → Option Nat
  | [], _, _ => none
  | c :: rest, i, depth =>
    if c = '[' then bracketLoop rest (i + 1) (depth + 1)
    else if c = ']' then
      if depth - 1 = 0 then some i else bracketLoop rest (i + 1) (depth - 1)
    else bracketLoop rest (i + 1) depth

/-- Embeds `_find_matching_bracket`: `none` models the source's -1. -/
def findMatchingBracket (cs : List Char) (start : Nat) : Option Nat :=
  match cs.drop start with
  | [] => none
  | c :: rest => if c = '[' then bracketLoop (c :: rest) start 0 else none

/-- Embeds `_fix_missing_quotes`: smart quotes/apostrophes to ASCII. -/
def fixMissingQuotes (cs : List Char) : List Char :=
  cs.map (fun c =>
    if c = Char.ofNat 0x201C then '"'
    else if c = Char.ofNat 0x201D then '"'
    else if c = Char.ofNat 0x2018 then Char.ofNat 39
    else if c = Char.ofNat 0x2019 then Char.ofNat 39
    else c)

/-- JSON whitespace skipping (`json.loads`). -/
def jsonSkipWs (cs : List Char) : List Char :=
  cs.dropWhile (fun c => c == ' ' || c == '\t' || c == '\n' || c == '\r')

def digitVal (c : Char) : Option Nat :=
  if '0' ≤ c ∧ c ≤ '9' then some (c.toNat - 48) else none

def takeDigits : List Char → List Nat × List Char
  | [] => ([], [])
  | c :: rest =>
    match digitVal c with
    | some d => ((takeDigits rest).1.cons d, (takeDigits rest).2)
    | none => ([], c :: rest)

def digitsToNat (ds : List Nat) : Nat := ds.foldl (fun a d => a * 10 + d) 0

def hexVal (c : Char) : Option Nat :=
  if '0' ≤ c ∧ c ≤ '9' then some (c.toNat - 48)
  else if 'a' ≤ c ∧ c ≤ 'f' then some (c.toNat - 87)
  else if 'A' ≤ c ∧ c ≤ 'F' then some (c.toNat - 55)
  else none

/-- JSON string body after the opening quote, with the standard escapes. -/
def parseStringBody : Nat → List Char → List Char → Except String (String × List Char)
  | 0, _, _ => .error "fuel exhausted in string"
  | _ + 1, [], _ => .error "unterminated string"
  | f + 1, c :: rest, acc =>
    if c = '"' then .ok (String.mk acc.reverse, rest)
    else if c = '\\' then
      match rest with
      | [] => .error "unterminated escape"
      | e :: rest2 =>
        if e = '"' then parseStringBody f rest2 ('"' :: acc)
        else if e = '\\' then parseStringBody f rest2 ('\\' :: acc)
        else if e = '/' then parseStringBody f rest2 ('/' :: acc)
        else if e = 'n' then parseStringBody f rest2 ('\n' :: acc)
        else if e = 't' then parseStringBody f rest2 ('\t' :: acc)
        else if e = 'r' then parseStringBody f rest2 ('\r' :: acc)
        else if e = 'b' then parseStringBody f rest2 (Char.ofNat 8 :: acc)
        else if e = 'f' then parseStringBody f rest2 (Char.ofNat 12 :: acc)
        else if e = 'u' then
          match rest2 with
          | h1 :: h2 :: h3 :: h4 :: rest3 =>
            match hexVal h1, hexVal h2, hexVal h3, hexVal h4 with
            | some v1, some v2, some v3, some v4 =>
              parseStringBody f rest3 (Char.ofNat (((v1 * 16 + v2) * 16 + v3) * 16 + v4) :: acc)
            | _, _, _, _ => .error "invalid unicode escape"
          | _ => .error "invalid unicode escape"
        else .error "invalid escape"
    else parseStringBody f rest (c :: acc)

/-- JSON number (sign, digits, optional fraction and exponent) as a rational. -/
def parseNumber (cs : List Char) : Except String (ℚ × List Char) :=
  let signed : Bool × List Char :=
    match cs with
    | '-' :: rest => (true, rest)
    | _ => (false, cs)
  match takeDigits signed.2 with
  | ([], _) => .error "invalid number"
  | (ids, cs2) =>
    let base : ℚ := (digitsToNat ids : ℚ)
    let withFrac : Except String (ℚ × List Char) :=
      match cs2 with
      | '.' :: rest =>
        match takeDigits rest with
        | ([], _) => .error "invalid number: no digits after point"
        | (fds, cs3) =>
          .ok (base + (digitsToNat fds : ℚ) / (10 : ℚ) ^ fds.length, cs3)
      | _ => .ok (base, cs2)
    match withFrac with
    | .error m => .error m
    | .ok (v, cs3) =>
      let withExp : Except String (ℚ × List Char) :=
        match cs3 with
        | c :: rest =>
          if c = 'e' ∨ c = 'E' then
            let esigned : Bool × List Char :=
              match rest with
              | '-' :: r2 => (true, r2)
              | '+' :: r2 => (false, r2)
              | _ => (false, rest)
            match takeDigits esigned.2 with
            | ([], _) => .error "invalid number: bad exponent"
            | (eds, cs4) =>
              let ex : ℚ := (10 : ℚ) ^ (digitsToNat eds)
              .ok (if esigned.1 then v / ex else v * ex, cs4)
          else .ok (v, cs3)
        | [] => .ok (v, cs3)
      match withExp with
      | .error m => .error m
      | .ok (v2, cs4) => .ok (if signed.1 then -v2 else v2, cs4)

/-- JSON values as produced by `json.loads`. -/
inductive Json where
  | str : String → Json
  | num : ℚ → Json
  | bool : Bool → Json
  | null : Json
  | arr : List Json → Json
  | obj : List (String × Json) → Json

mutual

/-- Recursive-descent JSON value parser (fuel-indexed). -/
def parseValue : Nat → List Char → Except String (Json × List Char)
  | 0, _ => .error "fuel exhausted"
  | f + 1, cs =>
    match jsonSkipWs cs with
    | [] => .error "expecting value"
    | c :: rest =>
      if c = '"' then
        match parseStringBody (f + 1) rest [] with
        | .ok (s, r) => .ok (.str s, r)
        | .error m => .error m
      else if c = '[' then
        match jsonSkipWs rest with
        | ']' :: r2 => .ok (.arr [], r2)
        | cs2 =>
          match parseArrayItems f cs2 [] with
          | .ok (xs, r) => .ok (.arr xs, r)
          | .error m => .error m
      else if c = '{' then
        match jsonSkipWs rest with
        | '}' :: r2 => .ok (.obj [], r2)
        | cs2 =>
          match parseObjMembers f cs2 [] with
          | .ok (ms, r) => .ok (.obj ms, r)
          | .error m => .error m
      else if c = 't' then
        if startsWithSeq ['r', 'u', 'e'] rest then .ok (.bool true, rest.drop 3)
        else .error "invalid literal"
      else if c = 'f' then
        if startsWithSeq ['a', 'l', 's', 'e'] rest then .ok (.bool false, rest.drop 4)
        else .error "invalid literal"
      else if c = 'n' then
        if startsWithSeq ['u', 'l', 'l'] rest then .ok (.null, rest.drop 3)
        else .error "invalid literal"
      else if c = '-' ∨ (digitVal c).isSome then
        match parseNumber (c :: rest) with
        | .ok (q, r) => .ok (.num q, r)
        | .error m => .error m
      else .error "expecting value"

/-- Array items after the opening `[` (at least one item). -/
def parseArrayItems : Nat → List Char → List Json → Except String (List Json × List Char)
  | 0, _, _ => .error "fuel exhausted"
  | f + 1, cs, acc =>
    match parseValue f cs with
    | .error m => .error m
    | .ok (v, r) =>
      match jsonSkipWs r with
      | ',' :: r2 => parseArrayItems f r2 (v :: acc)
      | ']' :: r2 => .ok ((v :: acc).reverse, r2)
      | _ => .error "expecting comma or close bracket"

/-- Object members after the opening `{` (at least one member). -/
def parseObjMembers : Nat → List Char → List (String × Json) →
    Except String (List (String × Json) × List Char)
  | 0, _, _ => .error "fuel exhausted"
  | f + 1, cs, acc =>
    match jsonSkipWs cs with
    | '"' :: rest =>
      match parseStringBody (f + 1) rest [] with
      | .error m => .error m
      | .ok (k, r) =>
        match jsonSkipWs r with
        | ':' :: r2 =>
          match parseValue f r2 with
          | .error m => .error m
          | .ok (v, r3) =>
            match jsonSkipWs r3 with
            | ',' :: r4 => parseObjMembers f r4 ((k, v) :: acc)
            | '}' :: r4 => .ok (((k, v) :: acc).reverse, r4)
            | _ => .error "expecting comma or close brace"
        | _ => .error "expecting colon"
    | _ => .error "expecting property name"

end

/-- `json.loads`: parse one value and require only whitespace after it.  The
fuel `2 × (length + 1)` dominates the parser's needs (each recursion step
consumes input). -/
def jsonLoads (cs : List Char) : Except String Json :=
  match parseValue (2 * (cs.length + 1)) cs with
  | .error m => .error m
  | .ok (v, r) =>
    match jsonSkipWs r with
    | [] => .ok v
    | _ => .error "extra data"

/-- Python `dict.get` on a parsed JSON object. -/
def jGet (m : List (String × Json)) (k : String) : Option Json :=
  (m.find? (fun p => p.1 == k)).map (fun p => p.2)

/-- `item.get(k, "")` read as a string.  (The Python code stores whatever
value is present without conversion; a non-string here falls back to the
default, which no input in this development exercises.) -/
def jGetStr (m : List (String × Json)) (k : String) : String :=
  match jGet m k with
  | some (.str s) => s
  | _ => ""

/-- `item.get(k, 0)` read as an integer (same caveat as `jGetStr`). -/
def jGetInt (m : List (String × Json)) (k : String) : Int :=
  match jGet m k with
  | some (.num q) => q.floor
  | _ => 0

/-- `item.get(k, 0.0)` read as a rational (same caveat as `jGetStr`). -/
def jGetRat (m : List (String × Json)) (k : String) : ℚ :=
  match jGet m k with
  | some (.num q) => q
  | _ => 0

/-- Build one `Decision` from a parsed array item; a non-object item models
the `AttributeError` the Python loop would raise on `item.get`. -/
def itemToDecision : Json → Except String Decision
  | .obj m => .ok
      { symbol := jGetStr m "symbol", action := jGetStr m "action",
        leverage := jGetInt m "leverage",
        position_size_usd := jGetRat m "position_size_usd",
        stop_loss := jGetRat m "stop_loss", take_profit := jGetRat m "take_profit",
        confidence := jGetInt m "confidence", risk_usd := jGetRat m "risk_usd",
        reasoning := jGetStr m "reasoning" }
  | _ => .error "decision item is not an object"

def itemsToDecisions : List Json → Except String (List Decision)
  | [] => .ok []
  | j :: rest =>
    match itemToDecision j with
    | .error m => .error m
    | .ok d =>
      match itemsToDecisions rest with
      | .error m => .error m
      | .ok ds => .ok (d :: ds)

def decisionsFromJson : Json → Except String (List Decision)
  | .arr items => itemsToDecisions items
  | _ => .error "decisions payload is not a list"

/-- Embeds `_extract_decisions`: anchor on the first `[`, depth-match its `]`,
strip the span, normalise smart quotes, `json.loads` it, and convert the
items. -/
def extractDecisions (response : String) : Except String (List Decision) :=
  let cs := response.data
  let array_start := pyFind cs '['
  if array_start = -1 then .error "无法找到JSON数组起始"
  else
    match findMatchingBracket cs array_start.toNat with
    | none => .error "无法找到JSON数组结束"
    | some array_end =>
      let json_content := pyStripList ((cs.drop array_start.toNat).take
        (array_end + 1 - array_start.toNat))
      let fixed := fixMissingQuotes json_content
      match jsonLoads fixed with
      | .error m => .error ("JSON解析失败: " ++ m)
      | .ok j => decisionsFromJson j

lemma bracketLoop_append (xs ys : List Char) (i : Nat) (d : Int) (j : Nat)
    (h : bracketLoop xs i d = some j) :
    bracketLoop (xs ++ ys) i d = some j := by
  induction xs generalizing i d with
  | nil => simp [bracketLoop] at h
  | cons c rest ih =>
    rw [List.cons_append]
    rw [bracketLoop] at h ⊢
    split_ifs at h ⊢ with h1 h2 h3
    · exact ih _ _ h
    · exact h
    · exact ih _ _ h
    · exact ih _ _ h

/-- C5 counterexample: for a response whose first character is `[`, the
extracted reasoning trace is the entire response, not the empty string — the
source's `if json_start > 0` sends index 0 to the whole-response branch. -/
theorem C5_cot_trace_counterexample :
    extractCotTrace "[\x7b\"symbol\":\"BTCUSDT\",\"action\":\"hold\"\x7d]" =
      "[\x7b\"symbol\":\"BTCUSDT\",\"action\":\"hold\"\x7d]" ∧
    ¬ extractCotTrace "[\x7b\"symbol\":\"BTCUSDT\",\"action\":\"hold\"\x7d]" = "" :=
  ⟨rfl, by decide⟩

/-- C5 (amended): the trace is the text before the first `[`, stripped of
surrounding whitespace, when that `[` sits at a positive index; when no `[`
exists, or when the response starts with `[`, the trace is the entire
response stripped; the round-trip example yields the trace "reasoning..."
(the pre-bracket text stripped) and exactly one decision with action hold. -/
theorem C5_cot_trace_amended :
    (∀ s : String, '[' ∉ s.data → extractCotTrace s = pyStrip s) ∧
    (∀ s : String, s.data.head? = some '[' → extractCotTrace s = pyStrip s) ∧
    (∀ (pre rest : List Char), pre ≠ [] → '[' ∉ pre →
        extractCotTrace (String.mk (pre ++ '[' :: rest)) = String.mk (pyStripList pre)) ∧
    extractCotTrace "reasoning...\n[\x7b\"symbol\":\"BTCUSDT\",\"action\":\"hold\"\x7d]" =
      "reasoning..." ∧
    extractDecisions "reasoning...\n[\x7b\"symbol\":\"BTCUSDT\",\"action\":\"hold\"\x7d]" =
      .ok [{ symbol := "BTCUSDT", action := "hold" }] := by
  refine ⟨?_, ?_, ?_, rfl, rfl⟩
  · intro s h
    have hf : pyFind s.data '[' = -1 := by
      rw [pyFind]
      have hnone : s.data.findIdx? (· == '[') = none := by
        rw [List.findIdx?_eq_none_iff]
        intro a ha
        simp only [beq_eq_false_iff_ne, ne_eq]
        intro hc; exact h (hc ▸ ha)
      rw [hnone]
    simp only [extractCotTrace, hf]
    rw [if_neg (by norm_num)]
  · intro s h
    obtain ⟨t, ht⟩ : ∃ t, s.data = '[' :: t := by
      cases hd : s.data with
      | nil => rw [hd] at h; cases h
      | cons a t =>
        rw [hd] at h
        simp only [List.head?_cons, Option.some_inj] at h
        exact ⟨t, by rw [h]⟩
    have hf : pyFind s.data '[' = 0 := by
      rw [pyFind, ht]
      simp [List.findIdx?_cons]
    simp only [extractCotTrace, hf]
    rw [if_neg (by norm_num)]
  · intro pre rest hne hmem
    have hf : pyFind (String.mk (pre ++ '[' :: rest)).data '[' = (pre.length : Int) := by
      rw [pyFind]
      have h1 : pre.findIdx? (· == '[') = none := by
        rw [List.findIdx?_eq_none_iff]
        intro a ha
        simp only [beq_eq_false_iff_ne, ne_eq]
        intro hc; exact hmem (hc ▸ ha)
      have h2 : (pre ++ '[' :: rest).findIdx? (· == '[') = some pre.length := by
        rw [List.findIdx?_append, h1]
        simp [List.findIdx?_cons]
      rw [h2]
    have hpos : (0 : Int) < (pre.length : Int) := by
      have : 0 < pre.length := List.length_pos.mpr hne
      exact_mod_cast this
    simp only [extractCotTrace, hf]
    rw [if_pos hpos]
    have htake : (String.mk (pre ++ '[' :: rest)).data.take (pre.length : Int).toNat = pre := by
      have : ((pre.length : Int)).toNat = pre.length := rfl
      rw [this]
      show (pre ++ '[' :: rest).take pre.length = pre
      rw [List.take_append_of_le_length (le_refl _), List.take_length]
    rw [htake]
    rfl

/-- Witness for C5 (amended): the pre-bracket branch evaluated on a concrete
response with a leading reasoning fragment. -/
theorem C5_cot_trace_amended_witness :
    extractCotTrace (String.mk ("abc ".data ++ '[' :: "1]".data)) =
      String.mk (pyStripList "abc ".data) := by
  exact C5_cot_trace_amended.2.2.1 "abc ".data "1]".data (by decide) (by decide)

/-- C4 counterexample: a reasoning trace containing the literal fragment
`[note]` before the real decision array makes extraction fail outright, even
though the later array is valid JSON (as the second conjunct shows) — the
parser does not select the array that actually parses. -/
theorem C4_first_bracket_counterexample :
    (extractDecisions
      "Analysis [note] follows\n[\x7b\"symbol\": \"BTCUSDT\", \"action\": \"hold\"\x7d]").toOption
      = none ∧
    extractDecisions "[\x7b\"symbol\": \"BTCUSDT\", \"action\": \"hold\"\x7d]" =
      .ok [{ symbol := "BTCUSDT", action := "hold" }] :=
  ⟨rfl, rfl⟩

/-- C4 (amended): the parser anchors on the first `[` of the response and its
depth-matched `]`; when that span (here the literal `[note]`) is not valid
JSON, extraction fails no matter what follows — in particular it never falls
back to a valid decision array later in the response. -/
theorem C4_first_bracket_amended :
    ∀ trailing : String,
      (extractDecisions ("Analysis [note] follows" ++ trailing)).toOption = none := by
  intro trailing
  have hdata : ("Analysis [note] follows" ++ trailing).data =
      "Analysis [note] follows".data ++ trailing.data := rfl
  have hfind : pyFind ("Analysis [note] follows" ++ trailing).data '[' = 9 := by
    rw [pyFind, hdata, List.findIdx?_append]
    have h1 : "Analysis [note] follows".data.findIdx? (· == '[') = some 9 := rfl
    rw [h1]
    rfl
  have hdrop : ("Analysis [note] follows" ++ trailing).data.drop 9 =
      "[note] follows".data ++ trailing.data := by
    rw [hdata, List.drop_append_of_le_length (by decide)]
    rfl
  have hmb : findMatchingBracket ("Analysis [note] follows" ++ trailing).data 9 =
      some 14 := by
    rw [findMatchingBracket, hdrop]
    show (if ('[' : Char) = '[' then
        bracketLoop ('[' :: ("note] follows".data ++ trailing.data)) 9 0 else none) = some 14
    rw [if_pos rfl]
    exact bracketLoop_append "[note] follows".data trailing.data 9 0 14 rfl
  have htake : (("Analysis [note] follows" ++ trailing).data.drop 9).take 6 =
      "[note]".data := by
    rw [hdrop, List.take_append_of_le_length (by decide)]
    rfl
  simp only [extractDecisions, hfind]
  rw [if_neg (by norm_num)]
  simp only [show ((9 : Int)).toNat = 9 from rfl, hmb]
  rw [show (14 + 1 - 9 : Nat) = 6 from rfl, htake]
  rfl

end NofxSpec
